import Mathlib

/-!
Shallow embedding of the recipe API (`main.py`): a FastAPI service exposing
CRUD over two flat JSON files (`recipes.json`, `favorite_recipes.json`).
Each backing file is modelled by its parsed content, a list of JSON objects;
each handler is modelled as a function from that state (plus its request
arguments) to the new state and an HTTP-level result.
-/

namespace RecipeApi

/-- A JSON value, as produced by Python's `json.load` / `json.loads`.
The extra `url` constructor stands for the pydantic `Url` object that
`Recipe.model_dump()` places in the `image_link` field (it is not a plain
string until `write_json` applies `str(...)` to it). -/
inductive JsonVal where
  | null
  | bool (b : Bool)
  | int (n : Int)
  | str (s : String)
  | url (s : String)
  | arr (xs : List JsonVal)
  | obj (fields : List (String × JsonVal))

/-- A Python dict parsed from JSON: key/value pairs in insertion order. -/
abbrev Dict := List (String × JsonVal)

/-- Python `d[k]` read on a dict: the value of the first matching key,
`none` when the key is absent (a `KeyError` in Python). -/
def lookupKey (r : Dict) (k : String) : Option JsonVal :=
  match r.find? (fun p => p.1 == k) with
  | some p => some p.2
  | none => none

/-- Python `d[k] = v` on a dict: replaces the value in place when the key
exists (dicts keep insertion order), otherwise appends the new pair. -/
def setKey (r : Dict) (k : String) (v : JsonVal) : Dict :=
  if r.any (fun p => p.1 == k) then
    r.map (fun p => if p.1 == k then (k, v) else p)
  else
    r ++ [(k, v)]

mutual

/-- Python `repr()` of a JSON value (used by `str()` inside containers). -/
def pyRepr : JsonVal → String
  | .null => "None"
  | .bool b => if b then "True" else "False"
  | .int n => toString n
  | .str s => "\x27" ++ s ++ "\x27"
  | .url s => "Url(\x27" ++ s ++ "\x27)"
  | .arr xs => "[" ++ pyReprList xs ++ "]"
  | .obj fs => "\x7b" ++ pyReprObj fs ++ "\x7d"

/-- Comma-separated `repr()`s of the elements of a Python list. -/
def pyReprList : List JsonVal → String
  | [] => ""
  | [x] => pyRepr x
  | x :: xs => pyRepr x ++ ", " ++ pyReprList xs

/-- Comma-separated `repr()`s of the entries of a Python dict. -/
def pyReprObj : List (String × JsonVal) → String
  | [] => ""
  | [(k, v)] => "\x27" ++ k ++ "\x27: " ++ pyRepr v
  | (k, v) :: fs => "\x27" ++ k ++ "\x27: " ++ pyRepr v ++ ", " ++ pyReprObj fs

end

/-- Python `str()` of a JSON value; on a pydantic `Url` it yields the URL
text, which is how `write_json` normalizes `image_link` to a plain string. -/
def pyStr : JsonVal → String
  | .str s => s
  | .url s => s
  | .null => "None"
  | .bool b => if b then "True" else "False"
  | .int n => toString n
  | .arr xs => "[" ++ pyReprList xs ++ "]"
  | .obj fs => "\x7b" ++ pyReprObj fs ++ "\x7d"

/-- The errors a handler can surface: `httpException` is FastAPI's
`HTTPException(status_code, detail)`; `keyError` is a Python `KeyError`
escaping unhandled; `typeError` is a Python `TypeError` from subscripting a
non-dict value with a string key. -/
inductive ApiError where
  | httpException (status_code : Nat) (detail : String)
  | keyError (key : String)
  | typeError

/-- `get_recipes(filename)`: `json.load` of the whole backing file. The
file state is modelled by its parsed content, so this returns it verbatim. -/
def get_recipes (file : List Dict) : List Dict := file

/-- `write_json(filename, recipe)`: loads the full collection, normalizes
`recipe["image_link"]` with `str(...)` (a `KeyError` escapes when the key is
absent, before anything is written), appends the record and rewrites the
file. Returns the new file content together with the handler result. -/
def write_json (file : List Dict) (recipe : Dict) : List Dict × Except ApiError Dict :=
  match lookupKey recipe "image_link" with
  | none => (file, .error (.keyError "image_link"))
  | some v =>
    let recipe2 := setKey recipe "image_link" (.str (pyStr v))
    (file ++ [recipe2], .ok recipe2)

/-- Python `recipe["id"] == id` for a JSON value against an int: ints compare
by value, `True`/`False` compare as `1`/`0`, every other type is unequal. -/
def jvalEqInt (v : JsonVal) (id : Int) : Bool :=
  match v with
  | .int n => n == id
  | .bool b => (if b then (1 : Int) else 0) == id
  | _ => false

/-- The loop body of `delete_from_json`: scan for the first record whose
`"id"` equals `id`, returning the remaining records and the popped record;
`none` when the loop falls through; `KeyError` when a scanned record has no
`"id"` key. -/
def scanDelete : List Dict → Int → Except ApiError (Option (List Dict × Dict))
  | [], _ => .ok none
  | r :: rs, id =>
    match lookupKey r "id" with
    | none => .error (.keyError "id")
    | some v =>
      if jvalEqInt v id then .ok (some (rs, r))
      else
        match scanDelete rs id with
        | .error e => .error e
        | .ok none => .ok none
        | .ok (some (rest, removed)) => .ok (some (r :: rest, removed))

/-- `delete_from_json(filename, id)`: loads the collection, pops the first
record with matching id and rewrites the file (the write happens only inside
the matching branch), returning the removed record; raises
`HTTPException(404, "Recipe not found")` when the loop finds no match, the
file untouched. -/
def delete_from_json (file : List Dict) (id : Int) : List Dict × Except ApiError Dict :=
  match scanDelete file id with
  | .error e => (file, .error e)
  | .ok none => (file, .error (.httpException 404 "Recipe not found"))
  | .ok (some (rest, removed)) => (rest, .ok removed)

/-- The pydantic `Recipe` model: `id`, `name` (1 to 50 chars), `author`
(1 to 50 chars), `image_link` (an `HttpUrl`, kept here as its text), and
`recipe`, the list of steps. -/
structure Recipe where
  id : Int
  name : String
  author : String
  image_link : String
  recipe : List String

/-- Modelled from the pydantic field validators: the length bounds on `name`
and `author` are exactly `Field(min_length=1, max_length=50)`; `HttpUrl`
well-formedness is abstracted to the scheme check (pydantic also validates
host and length, which no claim depends on). -/
def Recipe.Valid (r : Recipe) : Bool :=
  1 ≤ r.name.length && r.name.length ≤ 50 &&
    1 ≤ r.author.length && r.author.length ≤ 50 &&
    (List.isPrefixOf ("http://").data r.image_link.data ||
      List.isPrefixOf ("https://").data r.image_link.data)

/-- `Recipe.model_dump()`: the dict of the model's fields in declaration
order; `image_link` is still the pydantic `Url` object, not a plain string. -/
def Recipe.model_dump (r : Recipe) : Dict :=
  [("id", .int r.id), ("name", .str r.name), ("author", .str r.author),
    ("image_link", .url r.image_link), ("recipe", .arr (r.recipe.map .str))]

/-- The loop of `get_recipe`: return the first record whose `"id"` equals
`id`, raise `HTTPException(404, "Recipe not found")` when the loop falls
through, `KeyError` when a scanned record has no `"id"` key. -/
def scanFind : List Dict → Int → Except ApiError Dict
  | [], _ => .error (.httpException 404 "Recipe not found")
  | r :: rs, id =>
    match lookupKey r "id" with
    | none => .error (.keyError "id")
    | some v => if jvalEqInt v id then .ok r else scanFind rs id

/-- `get_recipe(id)` (GET /recipe/id): `get_recipes("recipes")` then a
linear scan for the first record with matching id. -/
def get_recipe (file : List Dict) (id : Int) : Except ApiError Dict :=
  scanFind (get_recipes file) id

/-- The two backing files, each modelled by its parsed content. -/
structure Store where
  recipes : List Dict
  favorite_recipes : List Dict

/-- The body FastAPI passes to `create_recipe` / `post_favorite_recipe`
(`Recipe | str`): either a validated `Recipe` model, or a raw string body;
for the string case we carry the `json.loads` result directly (the JSON
parser itself is abstracted). -/
inductive BodyIn where
  | structured (r : Recipe)
  | raw (j : JsonVal)

/-- `create_recipe` (POST /recipe/new): a string body is parsed as loose
JSON and written with `write_json("favorite_recipes", ...)`; a structured
body is dumped and written with `write_json("recipes", ...)`. Subscripting a
non-dict parsed value with `"image_link"` inside `write_json` is a Python
`TypeError`, surfaced here at the call site. -/
def create_recipe (st : Store) (body : BodyIn) : Store × Except ApiError Dict :=
  match body with
  | .raw j =>
    match j with
    | .obj fields =>
      let res := write_json st.favorite_recipes fields
      ({ st with favorite_recipes := res.1 }, res.2)
    | _ => (st, .error .typeError)
  | .structured r =>
    let res := write_json st.recipes r.model_dump
    ({ st with recipes := res.1 }, res.2)

/-- `delete_recipe(id)` (DELETE /recipe/id): `delete_from_json("recipes", id)`. -/
def delete_recipe (st : Store) (id : Int) : Store × Except ApiError Dict :=
  let res := delete_from_json st.recipes id
  ({ st with recipes := res.1 }, res.2)

/-- `UPLOAD_FOLDER`. -/
def UPLOAD_FOLDER : String := "uploaded_images"

/-- Python `s.split(sep)` for a one-character separator, written over the
character list of the string: splitting an empty string gives `[[]]`, and a
separator character starts a new group. -/
def splitOnChar (c : Char) : List Char → List (List Char)
  | [] => [[]]
  | a :: as =>
    let r := splitOnChar c as
    if a == c then [] :: r
    else
      match r with
      | [] => [[a]]
      | g :: gs => (a :: g) :: gs

/-- Python `s.split(c)`: the groups between occurrences of `c`, as strings.
The result is always nonempty. -/
def pySplit (s : String) (c : Char) : List String :=
  (splitOnChar c s.data).map String.mk

/-- `upload_image(file)` (POST /upload-image/): takes the client-supplied
filename and the `str(uuid.uuid4())` value drawn by the server (modelled as
a parameter supplied by the environment); returns the generated
`file_name` and the `url` string of the response. `filename.split(".")[-1]`
is `pySplit` followed by taking the last element (Python `split` always
returns a nonempty list). -/
def upload_image (filename : String) (u : String) : String × String :=
  let file_extension := (pySplit filename ('.' : Char)).getLastD ""
  let file_name := u ++ "." ++ file_extension
  (file_name, "https://recipe-api-w5qm.onrender.com/" ++ UPLOAD_FOLDER ++ "/" ++ file_name)

/-- A record of the collection as the data model describes it: the `"id"`
key is present and holds an integer. -/
def hasIntId (r : Dict) : Bool :=
  match lookupKey r "id" with
  | some (.int _) => true
  | _ => false

/-- A well-formed collection state: every record carries an integer id. -/
def WFColl (file : List Dict) : Bool := file.all hasIntId

/-- The scan predicate: record `r` matches the requested `id`. -/
def idMatches (id : Int) (r : Dict) : Bool :=
  match lookupKey r "id" with
  | some v => jvalEqInt v id
  | none => false

/-- The record `write_json` actually stores for a structured body: the
model dump with `image_link` normalized to a plain string (derived form,
equal to `(write_json file r.model_dump).2`). -/
def dumpStored (r : Recipe) : Dict :=
  [("id", .int r.id), ("name", .str r.name), ("author", .str r.author),
    ("image_link", .str r.image_link), ("recipe", .arr (r.recipe.map .str))]

/-- A valid recipe whose client-chosen id is 5, posted against an empty
collection (where a count-based server would assign id 1). -/
def cexR1 : Recipe := ⟨5, "Spaghetti", "John Doe", "http://x/y.jpg", ["boil", "drain"]⟩

/-- A stringified-JSON body for POST /recipe/new, already parsed: a fully
well-formed recipe object. -/
def c2Fields : Dict :=
  [("id", .int 7), ("name", .str "S"), ("author", .str "J"),
    ("image_link", .str "http://x/y.jpg"), ("recipe", .arr [.str "boil"])]

/-- A pre-existing record that already holds id 1. -/
def cexOld5 : Dict :=
  [("id", .int 1), ("name", .str "Old"), ("author", .str "A"),
    ("image_link", .str "http://a/b"), ("recipe", .arr [])]

/-- A prior store whose recipes collection already contains a record with id 1. -/
def cexSt5 : Store := ⟨[cexOld5], []⟩

/-- A valid recipe whose client-chosen id collides with the existing id 1. -/
def cexR5 : Recipe := ⟨1, "New", "A", "http://a/b", []⟩

/-- The record stored for `cexR5`. -/
def cexStored5 : Dict := dumpStored cexR5

/-- First of two records sharing id 2. -/
def cexA6 : Dict :=
  [("id", .int 2), ("name", .str "A"), ("author", .str "A"),
    ("image_link", .str "http://a/a"), ("recipe", .arr [])]

/-- Second of two records sharing id 2. -/
def cexB6 : Dict :=
  [("id", .int 2), ("name", .str "B"), ("author", .str "B"),
    ("image_link", .str "http://b/b"), ("recipe", .arr [])]

/-! ### Helper lemmas about the scans -/

theorem lookupKey_of_hasIntId {r : Dict} (h : hasIntId r = true) :
    ∃ n : Int, lookupKey r "id" = some (.int n) := by
  unfold hasIntId at h
  cases hl : lookupKey r "id" with
  | none => rw [hl] at h; exact Bool.noConfusion h
  | some v =>
    rw [hl] at h
    cases v with
    | int n => exact ⟨n, rfl⟩
    | null => exact Bool.noConfusion h
    | bool b => exact Bool.noConfusion h
    | str s => exact Bool.noConfusion h
    | url s => exact Bool.noConfusion h
    | arr xs => exact Bool.noConfusion h
    | obj fs => exact Bool.noConfusion h

theorem idMatches_eq (a : Dict) (id : Int) (v : JsonVal)
    (hl : lookupKey a "id" = some v) : idMatches id a = jvalEqInt v id := by
  unfold idMatches
  rw [hl]

theorem idMatches_true {r : Dict} {id : Int} (h : idMatches id r = true) :
    ∃ v, lookupKey r "id" = some v ∧ jvalEqInt v id = true := by
  unfold idMatches at h
  cases hl : lookupKey r "id" with
  | none => rw [hl] at h; exact Bool.noConfusion h
  | some v => rw [hl] at h; exact ⟨v, rfl, h⟩

theorem scanFind_cons (a : Dict) (as : List Dict) (id : Int) (v : JsonVal)
    (hl : lookupKey a "id" = some v) :
    scanFind (a :: as) id = if jvalEqInt v id then .ok a else scanFind as id := by
  simp only [scanFind]
  rw [hl]

theorem scanDelete_cons (a : Dict) (as : List Dict) (id : Int) (v : JsonVal)
    (hl : lookupKey a "id" = some v) :
    scanDelete (a :: as) id =
      if jvalEqInt v id then .ok (some (as, a))
      else
        match scanDelete as id with
        | .error e => .error e
        | .ok none => .ok none
        | .ok (some (rest, removed)) => .ok (some (a :: rest, removed)) := by
  simp only [scanDelete]
  rw [hl]

theorem scanFind_no_match (file : List Dict) (id : Int)
    (hwf : ∀ r ∈ file, hasIntId r = true)
    (hnone : ∀ r ∈ file, idMatches id r = false) :
    scanFind file id = .error (.httpException 404 "Recipe not found") := by
  induction file with
  | nil => rfl
  | cons a as ih =>
    obtain ⟨n, hl⟩ := lookupKey_of_hasIntId (hwf a (List.mem_cons_self a as))
    have hm : jvalEqInt (.int n) id = false := by
      rw [← idMatches_eq a id _ hl]
      exact hnone a (List.mem_cons_self a as)
    rw [scanFind_cons a as id _ hl, if_neg (by simp [hm])]
    exact ih (fun r hr => hwf r (List.mem_cons_of_mem a hr))
      (fun r hr => hnone r (List.mem_cons_of_mem a hr))

theorem scanFind_first_match (pre : List Dict) (m : Dict) (post : List Dict) (id : Int)
    (hwfpre : ∀ r ∈ pre, hasIntId r = true)
    (hpre : ∀ r ∈ pre, idMatches id r = false)
    (hm : idMatches id m = true) :
    scanFind (pre ++ m :: post) id = .ok m := by
  induction pre with
  | nil =>
    obtain ⟨v, hl, hv⟩ := idMatches_true hm
    rw [List.nil_append, scanFind_cons m post id v hl, if_pos hv]
  | cons a as ih =>
    obtain ⟨n, hl⟩ := lookupKey_of_hasIntId (hwfpre a (List.mem_cons_self a as))
    have hma : jvalEqInt (.int n) id = false := by
      rw [← idMatches_eq a id _ hl]
      exact hpre a (List.mem_cons_self a as)
    rw [List.cons_append, scanFind_cons a _ id _ hl, if_neg (by simp [hma])]
    exact ih (fun r hr => hwfpre r (List.mem_cons_of_mem a hr))
      (fun r hr => hpre r (List.mem_cons_of_mem a hr))

theorem exists_first_match (file : List Dict) (id : Int)
    (h : ∃ r ∈ file, idMatches id r = true) :
    ∃ pre m post, file = pre ++ m :: post ∧ (∀ r ∈ pre, idMatches id r = false) ∧
      idMatches id m = true := by
  induction file with
  | nil => simp at h
  | cons a as ih =>
    cases hma : idMatches id a with
    | true => exact ⟨[], a, as, rfl, by simp, hma⟩
    | false =>
      have h2 : ∃ r ∈ as, idMatches id r = true := by
        obtain ⟨r, hr, hmr⟩ := h
        cases List.mem_cons.mp hr with
        | inl he =>
          rw [he, hma] at hmr
          exact Bool.noConfusion hmr
        | inr h3 => exact ⟨r, h3, hmr⟩
      obtain ⟨pre, m, post, hf, hpre, hm⟩ := ih h2
      refine ⟨a :: pre, m, post, by rw [hf, List.cons_append], ?_, hm⟩
      intro r hr
      cases List.mem_cons.mp hr with
      | inl he => rw [he]; exact hma
      | inr h4 => exact hpre r h4

theorem scanDelete_no_match (file : List Dict) (id : Int)
    (hwf : ∀ r ∈ file, hasIntId r = true)
    (hnone : ∀ r ∈ file, idMatches id r = false) :
    scanDelete file id = .ok none := by
  induction file with
  | nil => rfl
  | cons a as ih =>
    obtain ⟨n, hl⟩ := lookupKey_of_hasIntId (hwf a (List.mem_cons_self a as))
    have hm : jvalEqInt (.int n) id = false := by
      rw [← idMatches_eq a id _ hl]
      exact hnone a (List.mem_cons_self a as)
    rw [scanDelete_cons a as id _ hl, if_neg (by simp [hm]),
      ih (fun r hr => hwf r (List.mem_cons_of_mem a hr))
        (fun r hr => hnone r (List.mem_cons_of_mem a hr))]

theorem scanDelete_first_match (pre : List Dict) (m : Dict) (post : List Dict) (id : Int)
    (hwfpre : ∀ r ∈ pre, hasIntId r = true)
    (hpre : ∀ r ∈ pre, idMatches id r = false)
    (hm : idMatches id m = true) :
    scanDelete (pre ++ m :: post) id = .ok (some (pre ++ post, m)) := by
  induction pre with
  | nil =>
    obtain ⟨v, hl, hv⟩ := idMatches_true hm
    rw [List.nil_append, scanDelete_cons m post id v hl, if_pos hv]
    rfl
  | cons a as ih =>
    obtain ⟨n, hl⟩ := lookupKey_of_hasIntId (hwfpre a (List.mem_cons_self a as))
    have hma : jvalEqInt (.int n) id = false := by
      rw [← idMatches_eq a id _ hl]
      exact hpre a (List.mem_cons_self a as)
    rw [List.cons_append, scanDelete_cons a _ id _ hl, if_neg (by simp [hma]),
      ih (fun r hr => hwfpre r (List.mem_cons_of_mem a hr))
        (fun r hr => hpre r (List.mem_cons_of_mem a hr))]
    rfl

theorem scanDelete_some_decomp (file : List Dict) (id : Int) (rest : List Dict)
    (removed : Dict) (h : scanDelete file id = .ok (some (rest, removed))) :
    ∃ pre post, file = pre ++ removed :: post ∧ rest = pre ++ post ∧
      (∀ r ∈ pre, idMatches id r = false) ∧ idMatches id removed = true := by
  induction file generalizing rest removed with
  | nil => exact Option.noConfusion (Except.ok.inj h)
  | cons a as ih =>
    cases hl : lookupKey a "id" with
    | none =>
      rw [show scanDelete (a :: as) id = .error (.keyError "id") by
        simp only [scanDelete]; rw [hl]] at h
      exact Except.noConfusion h
    | some v =>
      rw [scanDelete_cons a as id v hl] at h
      cases hv : jvalEqInt v id with
      | true =>
        rw [if_pos hv] at h
        obtain ⟨h1, h2⟩ := Prod.mk.injEq .. ▸ Option.some.inj (Except.ok.inj h)
        refine ⟨[], as, ?_, ?_, by simp, ?_⟩
        · rw [h2, List.nil_append]
        · rw [← h1, List.nil_append]
        · rw [← h2, idMatches_eq a id v hl]
          exact hv
      | false =>
        rw [if_neg (by simp [hv])] at h
        cases hs : scanDelete as id with
        | error e => rw [hs] at h; exact Except.noConfusion h
        | ok o =>
          cases o with
          | none => rw [hs] at h; exact Option.noConfusion (Except.ok.inj h)
          | some p =>
            obtain ⟨rest0, rem0⟩ := p
            rw [hs] at h
            obtain ⟨h1, h2⟩ := Prod.mk.injEq .. ▸ Option.some.inj (Except.ok.inj h)
            subst h2
            obtain ⟨pre, post, hf, hr, hpre, hm⟩ := ih rest0 rem0 hs
            refine ⟨a :: pre, post, ?_, ?_, ?_, hm⟩
            · rw [hf, List.cons_append]
            · rw [← h1, hr, List.cons_append]
            · intro r hr2
              cases List.mem_cons.mp hr2 with
              | inl he =>
                rw [he, idMatches_eq a id v hl]
                exact hv
              | inr h4 => exact hpre r h4

/-! ### Claim theorems -/

/-- C3: for every well-formed collection state and every integer id,
`get_by_id(id)` returns the first record in order whose id field equals the
given integer when at least one such record exists, and fails with NotFound
carrying the message "Recipe not found" exactly when no record has that id. -/
theorem get_by_id_contract (file : List Dict) (id : Int) (hwf : WFColl file = true) :
    ((∃ r ∈ file, idMatches id r = true) →
      ∃ pre m post, file = pre ++ m :: post ∧ (∀ r ∈ pre, idMatches id r = false) ∧
        idMatches id m = true ∧ get_recipe file id = .ok m) ∧
    (get_recipe file id = .error (.httpException 404 "Recipe not found") ↔
      ∀ r ∈ file, idMatches id r = false) := by
  have hwf2 : ∀ r ∈ file, hasIntId r = true := List.all_eq_true.mp hwf
  constructor
  · intro h
    obtain ⟨pre, m, post, hf, hpre, hm⟩ := exists_first_match file id h
    refine ⟨pre, m, post, hf, hpre, hm, ?_⟩
    unfold get_recipe get_recipes
    rw [hf]
    exact scanFind_first_match pre m post id
      (fun r hr => hwf2 r (by rw [hf]; exact List.mem_append_left _ hr)) hpre hm
  · constructor
    · intro herr r hr
      cases hmr : idMatches id r with
      | false => rfl
      | true =>
        obtain ⟨pre, m, post, hf, hpre, hm⟩ :=
          exists_first_match file id ⟨r, hr, hmr⟩
        have hok : get_recipe file id = .ok m := by
          unfold get_recipe get_recipes
          rw [hf]
          exact scanFind_first_match pre m post id
            (fun x hx => hwf2 x (by rw [hf]; exact List.mem_append_left _ hx)) hpre hm
        rw [hok] at herr
        exact Except.noConfusion herr
    · intro hnone
      unfold get_recipe get_recipes
      exact scanFind_no_match file id hwf2 hnone

/-- C3 witness: a two-record collection, looked up at a present and at an
absent id. -/
theorem get_by_id_contract_witness :
    WFColl [cexOld5, cexA6] = true ∧
    (get_recipe [cexOld5, cexA6] 9 = .error (.httpException 404 "Recipe not found") ↔
      ∀ r ∈ [cexOld5, cexA6], idMatches 9 r = false) :=
  ⟨rfl, (get_by_id_contract [cexOld5, cexA6] 9 rfl).2⟩

/-- C4: for every well-formed collection state, when some record matches the
id, `delete_by_id(id)` removes exactly the first matching record, rewrites
the file to precisely the remaining records in their original order, and
returns the removed record; when none matches it fails with NotFound. -/
theorem delete_by_id_contract (file : List Dict) (id : Int) (hwf : WFColl file = true) :
    ((∃ r ∈ file, idMatches id r = true) →
      ∃ pre m post, file = pre ++ m :: post ∧ (∀ r ∈ pre, idMatches id r = false) ∧
        idMatches id m = true ∧ delete_from_json file id = (pre ++ post, .ok m)) ∧
    ((∀ r ∈ file, idMatches id r = false) →
      delete_from_json file id = (file, .error (.httpException 404 "Recipe not found"))) := by
  have hwf2 : ∀ r ∈ file, hasIntId r = true := List.all_eq_true.mp hwf
  constructor
  · intro h
    obtain ⟨pre, m, post, hf, hpre, hm⟩ := exists_first_match file id h
    refine ⟨pre, m, post, hf, hpre, hm, ?_⟩
    unfold delete_from_json
    rw [hf, scanDelete_first_match pre m post id
      (fun r hr => hwf2 r (by rw [hf]; exact List.mem_append_left _ hr)) hpre hm]
  · intro hnone
    unfold delete_from_json
    rw [scanDelete_no_match file id hwf2 hnone]

/-- C4 witness: deleting a present id removes it, deleting an absent id is
a 404. -/
theorem delete_by_id_contract_witness :
    WFColl [cexOld5, cexA6] = true ∧
    (∀ r ∈ [cexOld5, cexA6], idMatches 9 r = false) ∧
    delete_from_json [cexOld5, cexA6] 9 =
      ([cexOld5, cexA6], .error (.httpException 404 "Recipe not found")) :=
  ⟨rfl, by decide,
    (delete_by_id_contract [cexOld5, cexA6] 9 rfl).2 (by decide)⟩

/-- C9: for every well-formed collection state and every id matching no
record, `delete_by_id(id)` raises NotFound and the backing file content is
exactly what it was before the call. -/
theorem delete_not_found_no_write (file : List Dict) (id : Int)
    (hwf : WFColl file = true) (hnone : ∀ r ∈ file, idMatches id r = false) :
    delete_from_json file id = (file, .error (.httpException 404 "Recipe not found")) := by
  unfold delete_from_json
  rw [scanDelete_no_match file id (List.all_eq_true.mp hwf) hnone]

/-- C9 witness: deleting id 9 from a collection holding only ids 1 and 2
leaves the file content untouched. -/
theorem delete_not_found_no_write_witness :
    WFColl [cexOld5, cexB6] = true ∧
    (∀ r ∈ [cexOld5, cexB6], idMatches 9 r = false) ∧
    delete_from_json [cexOld5, cexB6] 9 =
      ([cexOld5, cexB6], .error (.httpException 404 "Recipe not found")) :=
  ⟨rfl, by decide, delete_not_found_no_write [cexOld5, cexB6] 9 rfl (by decide)⟩

/-- C7: `list_all()` length grows by exactly 1 across a completed `create`
(`write_json`) and shrinks by exactly 1 across a successful
`delete_by_id` (`delete_from_json`). -/
theorem list_all_length_after_create_delete (fileC fileD : List Dict)
    (r recC recD : Dict) (id : Int)
    (hc : (write_json fileC r).2 = .ok recC)
    (hd : (delete_from_json fileD id).2 = .ok recD) :
    (get_recipes (write_json fileC r).1).length = (get_recipes fileC).length + 1 ∧
    (get_recipes (delete_from_json fileD id).1).length + 1 =
      (get_recipes fileD).length := by
  constructor
  · unfold write_json at hc ⊢
    cases hl : lookupKey r "image_link" with
    | none =>
      rw [hl] at hc
      exact Except.noConfusion hc
    | some v =>
      show (fileC ++ [setKey r "image_link" (.str (pyStr v))]).length = fileC.length + 1
      simp
  · unfold delete_from_json at hd ⊢
    cases hs : scanDelete fileD id with
    | error e =>
      rw [hs] at hd
      exact Except.noConfusion hd
    | ok o =>
      cases o with
      | none =>
        rw [hs] at hd
        exact Except.noConfusion hd
      | some p =>
        obtain ⟨rest, removed⟩ := p
        obtain ⟨pre, post, hf, hr, _, _⟩ :=
          scanDelete_some_decomp fileD id rest removed hs
        show rest.length + 1 = fileD.length
        rw [hf, hr]
        simp [List.length_append]
        omega

/-- C7 witness: one create over a one-record file and one delete over a
two-record file. -/
theorem list_all_length_witness :
    (write_json [cexOld5] cexA6).2 = .ok cexA6 ∧
    (delete_from_json [cexOld5, cexA6] 2).2 = .ok cexA6 ∧
    ((get_recipes (write_json [cexOld5] cexA6).1).length =
        (get_recipes [cexOld5]).length + 1 ∧
      (get_recipes (delete_from_json [cexOld5, cexA6] 2).1).length + 1 =
        (get_recipes [cexOld5, cexA6]).length) :=
  ⟨rfl, rfl, list_all_length_after_create_delete [cexOld5] [cexOld5, cexA6]
    cexA6 cexA6 cexA6 2 rfl rfl⟩

/-- C1 counterexample: on an empty collection (so `count(collection) + 1`
is 1) a create whose body carries id 5 stores and returns a record with
id 5, not the server-computed id 1. -/
theorem create_id_not_count_cex :
    (create_recipe ⟨[], []⟩ (.structured cexR1)).2 = .ok (dumpStored cexR1) ∧
    (get_recipes ([] : List Dict)).length + 1 = 1 ∧
    lookupKey (dumpStored cexR1) "id" = some (.int 5) ∧
    ¬ lookupKey (dumpStored cexR1) "id" = some (.int 1) := by
  refine ⟨rfl, rfl, rfl, ?_⟩
  intro h
  have h2 : (some (JsonVal.int 5) : Option JsonVal) = some (.int 1) := h
  injection h2 with h3
  injection h3 with h4
  exact absurd h4 (by decide)

/-- C1 amended: the stored record's id is exactly the id supplied by the
client in the request body — the server assigns no id — and the record
returned to the caller is the stored record, carrying that client id. -/
theorem create_stores_client_id (st : Store) (r : Recipe) :
    create_recipe st (.structured r) =
      ({ st with recipes := st.recipes ++ [dumpStored r] }, .ok (dumpStored r)) ∧
    lookupKey (dumpStored r) "id" = some (.int r.id) :=
  ⟨rfl, rfl⟩

/-- C2: evaluated at a well-formed stringified-JSON body, POST /recipe/new
appends the parsed record to the favorite_recipes backing file and leaves
the recipes backing file untouched (the string branch of `create_recipe`
calls `write_json("favorite_recipes", ...)`). -/
theorem create_recipe_string_body_misroutes :
    (create_recipe ⟨[], []⟩ (.raw (.obj c2Fields))).1.recipes = [] ∧
    (create_recipe ⟨[], []⟩ (.raw (.obj c2Fields))).1.favorite_recipes = [c2Fields] ∧
    (create_recipe ⟨[], []⟩ (.raw (.obj c2Fields))).2 = .ok c2Fields :=
  ⟨rfl, rfl, rfl⟩

/-- C10: a stringified-JSON body parsing to an object with no "image_link"
key makes the create operation raise a KeyError inside `write_json` (not a
validation error), with nothing written to either file. -/
theorem create_raw_missing_image_link (st : Store) (fields : List (String × JsonVal))
    (h : lookupKey fields "image_link" = none) :
    create_recipe st (.raw (.obj fields)) = (st, .error (.keyError "image_link")) := by
  show ({ st with favorite_recipes := (write_json st.favorite_recipes fields).1 },
    (write_json st.favorite_recipes fields).2) = (st, .error (.keyError "image_link"))
  unfold write_json
  rw [h]

/-- C10 witness: the object containing only an id has no "image_link" key
and its creation fails with the KeyError. -/
theorem create_raw_missing_image_link_witness :
    lookupKey [("id", JsonVal.int 1)] "image_link" = none ∧
    create_recipe ⟨[], []⟩ (.raw (.obj [("id", JsonVal.int 1)])) =
      (⟨[], []⟩, .error (.keyError "image_link")) :=
  ⟨rfl, create_raw_missing_image_link ⟨[], []⟩ [("id", JsonVal.int 1)] rfl⟩

/-- C5 counterexample: creating a valid recipe whose client id 1 collides
with a record already holding id 1 makes the follow-up `get_by_id(1)`
return the pre-existing record, not the record `create` returned. -/
theorem create_get_round_trip_cex :
    Recipe.Valid cexR5 = true ∧
    (create_recipe cexSt5 (.structured cexR5)).2 = .ok cexStored5 ∧
    get_recipe (create_recipe cexSt5 (.structured cexR5)).1.recipes 1 = .ok cexOld5 ∧
    cexOld5 ≠ cexStored5 := by
  refine ⟨rfl, rfl, rfl, ?_⟩
  intro h
  have h1 : lookupKey cexOld5 "name" = some (.str "Old") := rfl
  rw [h] at h1
  have h2 : lookupKey cexStored5 "name" = some (.str "New") := rfl
  rw [h2] at h1
  injection h1 with h3
  injection h3 with h4
  exact absurd h4 (by decide)

/-- C5 amended: for every valid Recipe input and every well-formed prior
collection state in which no record already has the new record's id, create
followed by `get_by_id` on the returned record's id yields exactly the
record create returned. -/
theorem create_get_round_trip (st : Store) (r : Recipe) (_hv : r.Valid = true)
    (hwf : WFColl st.recipes = true)
    (hfresh : ∀ x ∈ st.recipes, idMatches r.id x = false) :
    create_recipe st (.structured r) =
      ({ st with recipes := st.recipes ++ [dumpStored r] }, .ok (dumpStored r)) ∧
    lookupKey (dumpStored r) "id" = some (.int r.id) ∧
    get_recipe (st.recipes ++ [dumpStored r]) r.id = .ok (dumpStored r) := by
  refine ⟨rfl, rfl, ?_⟩
  unfold get_recipe get_recipes
  have hm : idMatches r.id (dumpStored r) = true := by
    rw [idMatches_eq (dumpStored r) r.id (.int r.id) rfl]
    simp [jvalEqInt]
  exact scanFind_first_match st.recipes (dumpStored r) [] r.id
    (List.all_eq_true.mp hwf) hfresh hm

/-- C5 witness: a fresh id 3 against a one-record collection round-trips. -/
theorem create_get_round_trip_witness :
    Recipe.Valid ⟨3, "Spaghetti", "John Doe", "http://x/y.jpg", ["boil"]⟩ = true ∧
    WFColl [cexOld5] = true ∧
    (∀ x ∈ [cexOld5], idMatches 3 x = false) ∧
    get_recipe ([cexOld5] ++
        [dumpStored ⟨3, "Spaghetti", "John Doe", "http://x/y.jpg", ["boil"]⟩]) 3 =
      .ok (dumpStored ⟨3, "Spaghetti", "John Doe", "http://x/y.jpg", ["boil"]⟩) :=
  ⟨rfl, rfl, by decide,
    (create_get_round_trip ⟨[cexOld5], []⟩
      ⟨3, "Spaghetti", "John Doe", "http://x/y.jpg", ["boil"]⟩ rfl rfl (by decide)).2.2⟩

/-- C6 counterexample: with two records both holding id 2, deleting id 2
removes only the first, and the follow-up `get_by_id(2)` still succeeds. -/
theorem delete_then_get_cex :
    delete_from_json [cexA6, cexB6] 2 = ([cexB6], .ok cexA6) ∧
    get_recipe [cexB6] 2 = .ok cexB6 ∧
    get_recipe [cexB6] 2 ≠ .error (.httpException 404 "Recipe not found") := by
  refine ⟨rfl, rfl, ?_⟩
  intro h
  rw [show get_recipe [cexB6] 2 = .ok cexB6 from rfl] at h
  exact Except.noConfusion h

/-- C6 amended: on a well-formed collection in which at most one record
holds the given id, a successful `delete_by_id(id)` followed by
`get_by_id(id)` on the resulting collection fails with NotFound. -/
theorem delete_then_get_not_found (file file2 : List Dict) (m : Dict) (id : Int)
    (hwf : WFColl file = true)
    (huniq : (file.filter (idMatches id)).length ≤ 1)
    (hdel : delete_from_json file id = (file2, .ok m)) :
    get_recipe file2 id = .error (.httpException 404 "Recipe not found") := by
  unfold delete_from_json at hdel
  cases hs : scanDelete file id with
  | error e =>
    rw [hs] at hdel
    exact Except.noConfusion (congrArg Prod.snd hdel)
  | ok o =>
    cases o with
    | none =>
      rw [hs] at hdel
      exact Except.noConfusion (congrArg Prod.snd hdel)
    | some p =>
      obtain ⟨rest, removed⟩ := p
      rw [hs] at hdel
      obtain ⟨h1, h2⟩ := Prod.mk.injEq .. ▸ hdel
      obtain ⟨pre, post, hf, hr, hpre, hm⟩ :=
        scanDelete_some_decomp file id rest removed hs
      have hwf2 : ∀ x ∈ file, hasIntId x = true := List.all_eq_true.mp hwf
      have hfil : List.filter (idMatches id) file =
          removed :: List.filter (idMatches id) post := by
        rw [hf, List.filter_append,
          show List.filter (idMatches id) pre = [] from
            List.filter_eq_nil_iff.mpr (fun a ha => by simp [hpre a ha]),
          List.filter_cons_of_pos hm, List.nil_append]
      have hlen : (List.filter (idMatches id) post).length = 0 := by
        rw [hfil] at huniq
        simp only [List.length_cons] at huniq
        omega
      have hnil := List.length_eq_zero.mp hlen
      have hpost : ∀ x ∈ post, idMatches id x = false := by
        intro x hx
        cases hmx : idMatches id x with
        | false => rfl
        | true =>
          have hmem : x ∈ List.filter (idMatches id) post :=
            List.mem_filter.mpr ⟨hx, hmx⟩
          rw [hnil] at hmem
          exact absurd hmem (List.not_mem_nil x)
      subst h1
      unfold get_recipe get_recipes
      rw [hr]
      apply scanFind_no_match
      · intro x hx
        apply hwf2
        rw [hf]
        cases List.mem_append.mp hx with
        | inl hy => exact List.mem_append_left _ hy
        | inr hy => exact List.mem_append_right _ (List.mem_cons_of_mem _ hy)
      · intro x hx
        cases List.mem_append.mp hx with
        | inl hy => exact hpre x hy
        | inr hy => exact hpost x hy

/-- C6 witness: unique ids 1 and 2; deleting id 2 then getting id 2 is a
404. -/
theorem delete_then_get_not_found_witness :
    WFColl [cexOld5, cexA6] = true ∧
    ([cexOld5, cexA6].filter (idMatches 2)).length ≤ 1 ∧
    delete_from_json [cexOld5, cexA6] 2 = ([cexOld5], .ok cexA6) ∧
    get_recipe [cexOld5] 2 = .error (.httpException 404 "Recipe not found") :=
  ⟨rfl, by decide, rfl,
    delete_then_get_not_found [cexOld5, cexA6] [cexOld5] cexA6 2 rfl (by decide) rfl⟩

/-- C8: for every uploaded file whose client-supplied name contains a dot,
the returned url ends in the freshly generated filename, that filename is
the random stem followed by a dot and the last dot-separated segment of the
client filename, and two uploads with distinct random stems produce
distinct generated filenames. -/
theorem upload_image_contract (fn u1 u2 : String)
    (_hdot : fn.data.contains ('.' : Char) = true) (hne : u1 ≠ u2) :
    ((upload_image fn u1).2 =
      ("https://recipe-api-w5qm.onrender.com/" ++ UPLOAD_FOLDER ++ "/") ++
        (upload_image fn u1).1) ∧
    ((upload_image fn u1).1 = u1 ++ "." ++ (pySplit fn ('.' : Char)).getLastD "") ∧
    (upload_image fn u1).1 ≠ (upload_image fn u2).1 := by
  refine ⟨rfl, rfl, ?_⟩
  intro h
  apply hne
  apply String.ext
  have h2 : (u1 ++ "." ++ (pySplit fn ('.' : Char)).getLastD "") =
      (u2 ++ "." ++ (pySplit fn ('.' : Char)).getLastD "") := h
  have hd := congrArg String.data h2
  rw [String.data_append, String.data_append, String.data_append,
    String.data_append] at hd
  exact List.append_cancel_right (List.append_cancel_right hd)

/-- C8 witness: uploading "a.png" with two distinct random stems yields a
url ending in the generated name with extension png, and distinct names. -/
theorem upload_image_contract_witness :
    ("a.png" : String).data.contains ('.' : Char) = true ∧
    ("0f8fad5bd9cb469fa16570867728950e" : String) ≠
      "7c9e6679742540de944be07fc1f90ae7" ∧
    (upload_image "a.png" "0f8fad5bd9cb469fa16570867728950e").1 ≠
      (upload_image "a.png" "7c9e6679742540de944be07fc1f90ae7").1 ∧
    (upload_image "a.png" "0f8fad5bd9cb469fa16570867728950e").1 =
      "0f8fad5bd9cb469fa16570867728950e.png" :=
  ⟨rfl, by decide,
    (upload_image_contract "a.png" "0f8fad5bd9cb469fa16570867728950e"
      "7c9e6679742540de944be07fc1f90ae7" rfl (by decide)).2.2, rfl⟩

end RecipeApi
